import Mathlib

/-!
# Verification of the rlua-async bridging layer

A shallow embedding of `src/lib.rs` of the `rlua-async` crate: the layer
that bridges Rust futures (host polling) and Lua coroutines (yield/resume).

Embedded pieces, each translated from the source:

* the inner poll-step closure built by `ContextExt::create_async_function`
  (src/lib.rs lines 66-77), which polls the pinned producer future once per
  call using the `task::Context` held in the `FUTURE_CTX` scoped thread-local;
* the control-loop Lua snippet (src/lib.rs lines 80-95) that repeatedly calls
  the poll-step closure, returning the unpacked values when ready and
  `coroutine.yield()`-ing otherwise;
* `PollThreadFut::poll` (src/lib.rs lines 119-145), the host future that
  resumes the Lua thread once per poll and reinterprets the thread status;
* `FunctionExt::call_async` (src/lib.rs lines 168-189).

External collaborators (the `rlua` interpreter and `scoped_tls`) are modelled
by their documented contracts: a coroutine is a step function from resume
arguments to yield/return/error, `Thread::resume` on a non-resumable thread
returns `Error::CoroutineInactive`, and a scoped thread-local holds a value
for the dynamic extent of the `set` block, restoring the previous value (none)
on every exit path.
-/

namespace RluaAsync

/-- Lua values, restricted to the marshalling subset the bridge exchanges
(`rlua::Value`). -/
inductive LV : Type where
  | nil : LV
  | bool (b : Bool) : LV
  | int (n : Int) : LV
  | str (s : String) : LV
  | table (vs : List LV) : LV
deriving Repr

/-- `rlua::MultiValue`: a list of Lua values crossing the boundary. -/
abbrev MultiValue := List LV

/-- The `rlua::Error` cases relevant to the bridge. `coroutineInactive` is
returned by `Thread::resume` on a thread that is no longer resumable;
`fromLuaConversionError` is the distinct decode-failure kind raised by
`FromLuaMulti`; `toLuaConversionError` by `ToLuaMulti`; `runtime` is a Lua
runtime error raised while executing script code; `memory` an allocation
failure (e.g. from `create_thread`). -/
inductive LuaError : Type where
  | coroutineInactive : LuaError
  | runtime (msg : String) : LuaError
  | fromLuaConversionError (msg : String) : LuaError
  | toLuaConversionError (msg : String) : LuaError
  | memory (msg : String) : LuaError
deriving Repr, DecidableEq

/-- `std::task::Poll`. -/
inductive Poll (α : Type) : Type where
  | Pending : Poll α
  | Ready (a : α) : Poll α
deriving Repr

/-- An identifier standing for a `&mut task::Context` pointer held by the
host scheduler during one poll invocation. -/
abbrev Ctx := Nat

/-- The `FUTURE_CTX` scoped thread-local slot: holds the current context
pointer while a `scoped_thread_local` `set` block is active, `none` outside. -/
abbrev Relay := Option Ctx

/-- A Rust future of output `Except LuaError ρ` (the producer returns
`Result<Ret>`), modelled as an explicit state machine: polling takes the
scheduler context and the current state, and yields the next state together
with `Pending` or `Ready`. -/
def FutSpec (σ ρ : Type) : Type := Ctx → σ → σ × Poll (Except LuaError ρ)

/-- A future that resolves immediately: every poll is `Ready (r s)`. This is
the shape of `future::ok(a + 1)` in the crate tests. -/
def immediateFut (r : σ → Except LuaError ρ) : FutSpec σ ρ :=
  fun _ s => (s, Poll.Ready (r s))

/-- Instrumentation: lift a future to count how many times it is polled. -/
def countFut (fut : FutSpec σ ρ) : FutSpec (σ × Nat) ρ :=
  fun ctx sn =>
    match fut ctx sn.1 with
    | (s1, r) => ((s1, sn.2 + 1), r)

/-- The inner poll-step closure built by `create_async_function`
(src/lib.rs lines 66-77):

```rust
ctx.create_function_mut(move |ctx, _: MultiValue| {
    FUTURE_CTX.with(|fut_ctx| {
        let fut_ctx_ref = unsafe { &mut *(*fut_ctx as *mut task::Context) };
        match Future::poll(fut.as_mut(), fut_ctx_ref) {
            Poll::Pending => ToLuaMulti::to_lua_multi((rlua::Value::Nil, false), ctx),
            Poll::Ready(v) => {
                let v = ToLuaMulti::to_lua_multi(v?, ctx)?.into_vec();
                ToLuaMulti::to_lua_multi((v, true), ctx)
            }
        }
    })
})
```

`slot` is the current `FUTURE_CTX` value; `scoped_thread_local`'s `with`
aborts the process when no `set` is active, modelled as `none`. The Lua
arguments are ignored (`_: MultiValue`). The mutable pinned future is the
explicit state `s`. A `Poll::Ready(Err(e))` propagates through `v?` as an
interpreter-level error (the `Except.error` channel), never as an `ok`
payload. -/
def pollStep (fut : FutSpec σ ρ) (encodeRet : ρ → Except LuaError MultiValue)
    (slot : Relay) (s : σ) (_luaArgs : MultiValue) :
    Option (σ × Except LuaError MultiValue) :=
  match slot with
  | none => none
  | some ctx =>
    match fut ctx s with
    | (s1, Poll.Pending) => some (s1, Except.ok [LV.nil, LV.bool false])
    | (s1, Poll.Ready (Except.error e)) => some (s1, Except.error e)
    | (s1, Poll.Ready (Except.ok v)) =>
      match encodeRet v with
      | Except.error e => some (s1, Except.error e)
      | Except.ok mv => some (s1, Except.ok [LV.table mv, LV.bool true])

/-- Outcome of one step (resume) of a coroutine body: it yields with values,
returns with values, or raises a Lua error. -/
inductive StepOut (σ : Type) : Type where
  | yielded (s1 : σ) (vs : MultiValue) : StepOut σ
  | returned (vs : MultiValue) : StepOut σ
  | errored (e : LuaError) : StepOut σ

/-- A coroutine body as a step function: given the ambient `FUTURE_CTX` value,
the suspension state and the resume arguments, produce the step outcome.
`none` models a host-side abort (a Rust callback reading `FUTURE_CTX`
outside any installation). -/
def CoStep (σ : Type) : Type := Relay → σ → MultiValue → Option (StepOut σ)

/-- The state of an `rlua::Thread` handle: suspended at `s` (resumable),
finished normally, or finished with an error. -/
inductive ThreadState (σ : Type) : Type where
  | suspended (s : σ) : ThreadState σ
  | dead : ThreadState σ
  | failed : ThreadState σ

/-- `rlua::ThreadStatus`. -/
inductive ThreadStatus : Type where
  | Resumable : ThreadStatus
  | Unresumable : ThreadStatus
  | Error : ThreadStatus
deriving Repr, DecidableEq

/-- `Thread::status`: suspended threads are `Resumable`, normally finished
ones `Unresumable`, abnormally finished ones `Error`. -/
def ThreadState.status : ThreadState σ → ThreadStatus
  | ThreadState.suspended _ => ThreadStatus.Resumable
  | ThreadState.dead => ThreadStatus.Unresumable
  | ThreadState.failed => ThreadStatus.Error

/-- `Thread::resume`, per the `rlua` contract: resuming a suspended thread
runs its body step under the ambient relay value; a yield keeps it
suspended, a return makes it dead, an error makes it failed and surfaces the
error from the resume call itself. Resuming a dead or failed thread returns
`Error::CoroutineInactive`. -/
def resumeThread (co : CoStep σ) (slot : Relay) (t : ThreadState σ)
    (args : MultiValue) : Option (ThreadState σ × Except LuaError MultiValue) :=
  match t with
  | ThreadState.suspended s =>
    match co slot s args with
    | none => none
    | some (StepOut.yielded s1 vs) => some (ThreadState.suspended s1, Except.ok vs)
    | some (StepOut.returned vs) => some (ThreadState.dead, Except.ok vs)
    | some (StepOut.errored e) => some (ThreadState.failed, Except.error e)
  | ThreadState.dead => some (ThreadState.dead, Except.error LuaError.coroutineInactive)
  | ThreadState.failed => some (ThreadState.failed, Except.error LuaError.coroutineInactive)

/-- `PollThreadFut` (src/lib.rs lines 103-110): the host-side future returned
by `call_async`. `args` is the pending-argument slot, populated only before
the first resume; `thread` is the owned coroutine handle. (The `ctx` and
`PhantomData` fields carry no state; the decode function appears as a
parameter of `poll`.) -/
structure PollThreadFut (σ Arg : Type) : Type where
  args : Option Arg
  thread : ThreadState σ

/-- Result of one `PollThreadFut::poll` call: the future reports pending or
ready (with its updated state), or the `unreachable!()` branch at
src/lib.rs line 140 runs. -/
inductive PollOut (σ Arg Ret : Type) : Type where
  | pending (f : PollThreadFut σ Arg) : PollOut σ Arg Ret
  | ready (f : PollThreadFut σ Arg) (r : Except LuaError Ret) : PollOut σ Arg Ret
  | panicked : PollOut σ Arg Ret

/-- `PollThreadFut::poll` (src/lib.rs lines 119-145):

```rust
fn poll(mut self: Pin<&mut Self>, fut_ctx: &mut task::Context) -> Poll<Result<Ret>> {
    FUTURE_CTX.set(&(fut_ctx as *mut _ as *mut ()), || {
        let taken_args = unsafe { self.as_mut().get_unchecked_mut().args.take() };
        let resume_ret = if let Some(a) = taken_args {
            self.thread.resume::<_, rlua::MultiValue>(a)
        } else {
            self.thread.resume::<_, rlua::MultiValue>(())
        };
        match resume_ret {
            Err(e) => Poll::Ready(Err(e)),
            Ok(v) => match self.thread.status() {
                ThreadStatus::Resumable => Poll::Pending,
                ThreadStatus::Unresumable =>
                    Poll::Ready(FromLuaMulti::from_lua_multi(v, self.ctx)),
                ThreadStatus::Error => unreachable!(),
            },
        }
    })
}
```

`slot` is the relay value on entry; `FUTURE_CTX.set` installs `some futCtx`
for the body and restores `slot` on exit, so the returned pair carries the
restored relay value. `encA` is `ToLuaMulti` for `Arg`, `decodeRet` is
`FromLuaMulti` for `Ret`. The argument slot is taken (emptied) before the
resume, on every poll. -/
def PollThreadFut.poll (co : CoStep σ) (encA : Arg → MultiValue)
    (decodeRet : MultiValue → Except LuaError Ret) (futCtx : Ctx)
    (slot : Relay) (f : PollThreadFut σ Arg) :
    Option (Relay × PollOut σ Arg Ret) :=
  let resumed :=
    match f.args with
    | some a => resumeThread co (some futCtx) f.thread (encA a)
    | none => resumeThread co (some futCtx) f.thread []
  match resumed with
  | none => none
  | some (t1, Except.error e) =>
    some (slot, PollOut.ready { args := none, thread := t1 } (Except.error e))
  | some (t1, Except.ok v) =>
    match t1.status with
    | ThreadStatus.Resumable =>
      some (slot, PollOut.pending { args := none, thread := t1 })
    | ThreadStatus.Unresumable =>
      some (slot, PollOut.ready { args := none, thread := t1 } (decodeRet v))
    | ThreadStatus.Error => some (slot, PollOut.panicked)

/-- `FunctionExt::call_async` result (src/lib.rs lines 168-189): either the
already-failed future `future::err(e)` (coroutine creation failed, no thread
exists) or a `PollThreadFut` whose argument slot is pre-loaded. -/
inductive CallAsync (σ Arg : Type) : Type where
  | failedFuture (e : LuaError) : CallAsync σ Arg
  | poller (f : PollThreadFut σ Arg) : CallAsync σ Arg

/-- `FunctionExt::call_async` (src/lib.rs lines 168-189): `created` is the
result of `ctx.create_thread(self.clone())`; on success the fresh thread is
suspended at the body entry state `s0`. On failure, `Box::pin(future::err(e))`
is returned at once, with no thread created and no resume performed. -/
def call_async (created : Except LuaError σ) (args : Arg) : CallAsync σ Arg :=
  match created with
  | Except.error e => CallAsync.failedFuture e
  | Except.ok s0 =>
    CallAsync.poller { args := some args, thread := ThreadState.suspended s0 }

/-- The future `future::err(e)`: every poll is immediately `Ready (Err e)`. -/
def futureErr (Ret : Type) (e : LuaError) : FutSpec PUnit Ret :=
  fun _ s => (s, Poll.Ready (Except.error e))

/-- Lua truthiness: `nil` and `false` are falsy, everything else truthy. -/
def truthy : LV → Bool
  | LV.nil => false
  | LV.bool b => b
  | _ => true

/-- `table.unpack(t)`: flattens a table into a multivalue; on a non-table
value it raises a Lua runtime error. -/
def unpackTable : LV → Except LuaError MultiValue
  | LV.table vs => Except.ok vs
  | _ => Except.error (LuaError.runtime "attempt to unpack a non-table value")

/-- Suspension states of a coroutine whose body is
`function(...) local poll = f(...) while true do ... end end`
(the control-loop snippet applied to the wrapped function,
src/lib.rs lines 80-99): `entry` before the body has run, `inLoop s` when
suspended at `coroutine.yield()` with the pinned future in state `s`. -/
inductive CLState (σ : Type) : Type where
  | entry : CLState σ
  | inLoop (s : σ) : CLState σ

/-- The start stage of the wrapped function (src/lib.rs lines 64-65):
`move |ctx, arg| { let mut fut = Box::pin(func(ctx, arg)); ... }`.
`decodeArg` is `FromLuaMulti` for `Arg` (its failure raises a Lua error from
the call), `producer` builds the initial state of the fresh pinned future. -/
def startStage (decodeArg : MultiValue → Except LuaError A) (producer : A → σ)
    (args : MultiValue) : Except LuaError σ :=
  (decodeArg args).map producer

/-- One iteration of the injected control loop (src/lib.rs lines 85-92):

```lua
local t, ready = poll()
if ready then
    return table.unpack(t)
else
    coroutine.yield()
end
```

A Lua error raised by `poll()` (the poll-step closure) propagates out of the
coroutine body; `post` is the remainder of the enclosing script function that
consumes the returned values (e.g. `- 1` in the crate tests). -/
def loopIter (fut : FutSpec σ ρ) (encodeRet : ρ → Except LuaError MultiValue)
    (post : MultiValue → Except LuaError MultiValue)
    (slot : Relay) (s : σ) : Option (StepOut (CLState σ)) :=
  match pollStep fut encodeRet slot s [] with
  | none => none
  | some (_, Except.error e) => some (StepOut.errored e)
  | some (s1, Except.ok mv) =>
    let t := mv.headD LV.nil
    let ready := (mv.drop 1).headD LV.nil
    if truthy ready then
      match unpackTable t with
      | Except.error e => some (StepOut.errored e)
      | Except.ok vs =>
        match post vs with
        | Except.error e => some (StepOut.errored e)
        | Except.ok res => some (StepOut.returned res)
    else
      some (StepOut.yielded (CLState.inLoop s1) [])

/-- The coroutine body of a script function that forwards its arguments to an
adapted callable and post-processes the result (the shape of the crate tests:
`function(a) return f(a) - 1 end` with `f` adapted). On the first resume the
call arguments reach the start stage; on later resumes (returning from
`coroutine.yield()`, whose result is discarded) the loop continues with the
saved future state. -/
def forwardCo (decodeArg : MultiValue → Except LuaError A) (producer : A → σ)
    (fut : FutSpec σ ρ) (encodeRet : ρ → Except LuaError MultiValue)
    (post : MultiValue → Except LuaError MultiValue) : CoStep (CLState σ) :=
  fun slot st args =>
    match st with
    | CLState.entry =>
      match startStage decodeArg producer args with
      | Except.error e => some (StepOut.errored e)
      | Except.ok s => loopIter fut encodeRet post slot s
    | CLState.inLoop s => loopIter fut encodeRet post slot s

/-- The purely synchronous composition the bridge should agree with when the
producer future resolves immediately: decode the call arguments, run the
producer, encode its value, run the rest of the script, decode the result. -/
def syncForward (decodeArg : MultiValue → Except LuaError A) (producer : A → σ)
    (r : σ → Except LuaError ρ) (encodeRet : ρ → Except LuaError MultiValue)
    (post : MultiValue → Except LuaError MultiValue)
    (decodeRet : MultiValue → Except LuaError Ret) (args : MultiValue) :
    Except LuaError Ret :=
  match decodeArg args with
  | Except.error e => Except.error e
  | Except.ok a =>
    match r (producer a) with
    | Except.error e => Except.error e
    | Except.ok v =>
      match encodeRet v with
      | Except.error e => Except.error e
      | Except.ok mv =>
        match post mv with
        | Except.error e => Except.error e
        | Except.ok res => decodeRet res

/-- Projection: the ready value of a poll outcome, if any. -/
def readyValue : PollOut σ Arg Ret → Option (Except LuaError Ret)
  | PollOut.ready _ r => some r
  | _ => none

/-! ## Concrete scenario from the crate tests (src/lib.rs lines 200-224)

Producer `f(a) = a + 1`, immediate (`future::ok(a + 1)`); script
`function(a) return f(a) - 1 end`; call with `a = 2`. -/

/-- `FromLuaMulti` for a single integer argument. -/
def decodeIntArg (mv : MultiValue) : Except LuaError Int :=
  match mv.headD LV.nil with
  | LV.int n => Except.ok n
  | _ => Except.error (LuaError.fromLuaConversionError "expected integer")

/-- `ToLuaMulti` for a single integer result. -/
def encodeInt (n : Int) : Except LuaError MultiValue := Except.ok [LV.int n]

/-- `ToLuaMulti` encoding of the integer call argument (total). -/
def encIntArg (n : Int) : MultiValue := [LV.int n]

/-- The script continuation `... - 1` applied to the adapted call's results. -/
def subOne (mv : MultiValue) : Except LuaError MultiValue :=
  match mv.headD LV.nil with
  | LV.int n => Except.ok [LV.int (n - 1)]
  | _ => Except.error (LuaError.runtime "attempt to perform arithmetic on a non-number value")

/-- The immediate producer future `future::ok(a + 1)`: its state is the
captured argument. -/
def incFut : FutSpec Int Int := immediateFut (fun a => Except.ok (a + 1))

/-- The coroutine body of `function(a) return f(a) - 1 end` with `f` the
adapted `|_, a| future::ok(a + 1)`. -/
def itWorksCo : CoStep (CLState Int) :=
  forwardCo decodeIntArg (fun a => a) incFut encodeInt subOne

/-! ## Instrumented coroutines (for resume-count and relay observations) -/

/-- A coroutine that always yields, recording the relay value and the resume
arguments it was given. -/
def recCo : CoStep (List (Relay × MultiValue)) :=
  fun slot s args => some (StepOut.yielded (s ++ [(slot, args)]) [])

/-- A coroutine that always yields, counting its resumes. -/
def countCo : CoStep Nat :=
  fun _ n _ => some (StepOut.yielded (n + 1) [])

/-! ## The control-loop snippet installation

`create_async_function` (src/lib.rs lines 80-99) ends with

```rust
self.load(r#" function(f) ... end "#)
    .set_name(b"coroutine yield helper")?
    .eval::<Function<'lua>>()?
    .call(wrapped_fun)
```

so every call loads and evaluates the snippet in the interpreter
unconditionally (the `// TODO: find some way to cache this eval, maybe?`
notwithstanding). -/

/-- The interpreter-state fragment that counts control-loop snippet
evaluations. -/
structure SnippetState : Type where
  snippetEvals : Nat
deriving Repr, DecidableEq

/-- Effect of one `create_async_function` call on the snippet-evaluation
count: the snippet is loaded and evaluated exactly once, unconditionally
(src/lib.rs lines 80-98). -/
def createAsyncFunctionSnippet (st : SnippetState) : SnippetState :=
  { snippetEvals := st.snippetEvals + 1 }

/-- `n` successive `create_async_function` calls. -/
def createMany : Nat → SnippetState → SnippetState
  | 0, st => st
  | n + 1, st => createAsyncFunctionSnippet (createMany n st)

/-- The multivalue actually passed to `Thread::resume` by
`PollThreadFut::poll`: the encoded taken arguments on the first poll,
the empty multivalue (`()`) afterwards. -/
def sentArgs (encA : Arg → MultiValue) : Option Arg → MultiValue
  | some a => encA a
  | none => []

/-- The argument slot of the poller carried in a poll outcome. -/
def afterArgs : PollOut σ Arg Ret → Option Arg
  | PollOut.pending f1 => f1.args
  | PollOut.ready f1 _ => f1.args
  | PollOut.panicked => none

/-- A coroutine body that immediately returns `vs`. -/
def constRetCo (vs : MultiValue) : CoStep PUnit :=
  fun _ _ _ => some (StepOut.returned vs)

/-- A coroutine body that immediately raises the Lua error `e`. -/
def constErrCo (e : LuaError) : CoStep PUnit :=
  fun _ _ _ => some (StepOut.errored e)

/-- A future that never completes. -/
def neverFut : FutSpec PUnit ρ := fun _ s => (s, Poll.Pending)

/-! ## Theorems -/

/-- **C1.** For every producer whose future resolves immediately, `call_async`
applied to a script function that simply forwards to the adapted callable
returns, on its very first poll, `Ready` with the same result as the purely
synchronous composition of the same stages on the same arguments (and the
relay is restored); in particular, with producer `f(a) = a + 1` wrapped by
`create_async_function` and the script `function(a) return f(a) - 1 end`,
calling with `a = 2` completes with `Ok 2`. -/
theorem call_async_immediate_matches_sync {A σ ρ Ret Arg : Type}
    (decodeArg : MultiValue → Except LuaError A) (producer : A → σ)
    (r : σ → Except LuaError ρ) (encodeRet : ρ → Except LuaError MultiValue)
    (post : MultiValue → Except LuaError MultiValue)
    (decodeRet : MultiValue → Except LuaError Ret)
    (encA : Arg → MultiValue) (ctx : Ctx) (slot : Relay) (a : Arg) :
    (PollThreadFut.poll (forwardCo decodeArg producer (immediateFut r) encodeRet post)
        encA decodeRet ctx slot
        { args := some a, thread := ThreadState.suspended CLState.entry }).map
      (fun p => (p.1, readyValue p.2)) =
    some (slot, some (syncForward decodeArg producer r encodeRet post decodeRet (encA a)))
    ∧ (call_async (Except.ok (CLState.entry : CLState Int)) (2 : Int) = CallAsync.poller
        { args := some (2 : Int), thread := ThreadState.suspended CLState.entry }
      ∧ PollThreadFut.poll itWorksCo encIntArg decodeIntArg ctx slot
          { args := some (2 : Int), thread := ThreadState.suspended CLState.entry } =
        some (slot, PollOut.ready { args := none, thread := ThreadState.dead }
          (Except.ok (2 : Int)))) := by
  refine ⟨?_, rfl, ?_⟩
  · simp only [PollThreadFut.poll, forwardCo, startStage, loopIter, pollStep,
      immediateFut, syncForward, resumeThread, readyValue, Except.map]
    cases hd : decodeArg (encA a) with
    | error e => simp [resumeThread, readyValue, hd]
    | ok a1 =>
      cases hr : r (producer a1) with
      | error e => simp [resumeThread, readyValue, hd, hr]
      | ok v =>
        cases he : encodeRet v with
        | error e => simp [resumeThread, readyValue, hd, hr, he]
        | ok mv =>
          cases hp : post mv with
          | error e => simp [resumeThread, readyValue, truthy, unpackTable, hd, hr, he, hp]
          | ok res =>
            simp [resumeThread, readyValue, truthy, unpackTable, ThreadState.status,
              hd, hr, he, hp]
  · rfl

/-- **C2.** For every poll of a `PollThreadFut` in which the resume succeeds:
if the coroutine status afterwards is `Resumable` (the body yielded), poll
returns `Pending`; if it is `Unresumable` (the body returned `vs`), poll
returns `Ready` with the outcome of decoding `vs` into the expected host
return type — in particular a decode failure is surfaced as `Ready` with
that distinct decode error. -/
theorem poll_status_dispatch {σ Arg Ret : Type} (co : CoStep σ)
    (encA : Arg → MultiValue) (decodeRet : MultiValue → Except LuaError Ret)
    (ctx : Ctx) (slot : Relay) (aOpt : Option Arg) (s s1 : σ)
    (vs : MultiValue) (e : LuaError) :
    (co (some ctx) s (sentArgs encA aOpt) = some (StepOut.yielded s1 vs) →
      PollThreadFut.poll co encA decodeRet ctx slot
          { args := aOpt, thread := ThreadState.suspended s } =
        some (slot, PollOut.pending { args := none, thread := ThreadState.suspended s1 }))
    ∧ (co (some ctx) s (sentArgs encA aOpt) = some (StepOut.returned vs) →
      PollThreadFut.poll co encA decodeRet ctx slot
          { args := aOpt, thread := ThreadState.suspended s } =
        some (slot, PollOut.ready { args := none, thread := ThreadState.dead } (decodeRet vs)))
    ∧ (co (some ctx) s (sentArgs encA aOpt) = some (StepOut.returned vs) →
       decodeRet vs = Except.error e →
      PollThreadFut.poll co encA decodeRet ctx slot
          { args := aOpt, thread := ThreadState.suspended s } =
        some (slot, PollOut.ready { args := none, thread := ThreadState.dead }
          (Except.error e))) := by
  refine ⟨fun h => ?_, fun h => ?_, fun h hd => ?_⟩ <;>
    cases aOpt <;>
      simp_all [PollThreadFut.poll, resumeThread, sentArgs, ThreadState.status]

/-- Witness for C2: a coroutine that immediately returns `[]`, decoded by
`decodeIntArg`, which fails on the empty multivalue; the poll is `Ready` with
that decode error. -/
theorem poll_status_dispatch_witness :
    constRetCo [] (some 0) PUnit.unit (sentArgs encIntArg (some (5 : Int))) =
      some (StepOut.returned [])
    ∧ decodeIntArg [] = Except.error (LuaError.fromLuaConversionError "expected integer")
    ∧ PollThreadFut.poll (constRetCo []) encIntArg decodeIntArg 0 none
        { args := some (5 : Int), thread := ThreadState.suspended PUnit.unit } =
      some (none, PollOut.ready { args := none, thread := ThreadState.dead }
        (Except.error (LuaError.fromLuaConversionError "expected integer"))) :=
  ⟨rfl, rfl,
    (poll_status_dispatch (constRetCo []) encIntArg decodeIntArg 0 none
      (some 5) PUnit.unit PUnit.unit []
      (LuaError.fromLuaConversionError "expected integer")).2.2 rfl rfl⟩

/-- **C3.** The inner poll-step closure polls its owned pinned future exactly
once per invocation, using the context installed in the relay: on `Pending`
it returns the PollResult "pending" shape `(nil, false)`; on `Ready(Ok v)`
the "ready" shape `(encoded values, true)`; on `Ready(Err e)` the failure
propagates as an interpreter-level error (the `Except.error` channel, never
an `ok` PollResult payload), which makes the surrounding control loop abort
with that error instead of yielding. -/
theorem pollStep_polls_once {σ ρ : Type} (fut : FutSpec σ ρ)
    (encodeRet : ρ → Except LuaError MultiValue)
    (post : MultiValue → Except LuaError MultiValue)
    (ctx : Ctx) (s s1 : σ) (n : Nat) (luaArgs : MultiValue)
    (v : ρ) (e : LuaError) (mv : MultiValue) :
    ((pollStep (countFut fut) encodeRet (some ctx) (s, n) luaArgs).map
        (fun p => p.1.2) = some (n + 1))
    ∧ (fut ctx s = (s1, Poll.Pending) →
        pollStep fut encodeRet (some ctx) s luaArgs =
          some (s1, Except.ok [LV.nil, LV.bool false]))
    ∧ (fut ctx s = (s1, Poll.Ready (Except.ok v)) → encodeRet v = Except.ok mv →
        pollStep fut encodeRet (some ctx) s luaArgs =
          some (s1, Except.ok [LV.table mv, LV.bool true]))
    ∧ (fut ctx s = (s1, Poll.Ready (Except.error e)) →
        pollStep fut encodeRet (some ctx) s luaArgs = some (s1, Except.error e))
    ∧ (fut ctx s = (s1, Poll.Ready (Except.error e)) →
        loopIter fut encodeRet post (some ctx) s = some (StepOut.errored e)) := by
  refine ⟨?_, fun h => ?_, fun h he => ?_, fun h => ?_, fun h => ?_⟩
  · rcases hf : fut ctx s with ⟨s2, r⟩
    rcases r with _ | r
    · simp [pollStep, countFut, hf]
    · rcases r with e | v2
      · simp [pollStep, countFut, hf]
      · rcases he : encodeRet v2 with e | mv2 <;> simp [pollStep, countFut, hf, he]
  · simp [pollStep, h]
  · simp [pollStep, h, he]
  · simp [pollStep, h]
  · simp [loopIter, pollStep, h]

/-- Witness for C3: the immediate future `incFut` at state `4` is ready with
`Ok 5`, encoded as `[5]`, so the poll step returns the ready shape; and the
already-failed future `futureErr` makes both the poll step and the loop
iteration propagate the error. -/
theorem pollStep_polls_once_witness :
    incFut 0 4 = ((4 : Int), Poll.Ready (Except.ok (5 : Int)))
    ∧ encodeInt 5 = Except.ok [LV.int 5]
    ∧ pollStep incFut encodeInt (some 0) 4 [] =
        some ((4 : Int), Except.ok [LV.table [LV.int 5], LV.bool true])
    ∧ futureErr Int (LuaError.runtime "boom") 0 PUnit.unit =
        (PUnit.unit, Poll.Ready (Except.error (LuaError.runtime "boom")))
    ∧ loopIter (futureErr Int (LuaError.runtime "boom")) encodeInt subOne
        (some 0) PUnit.unit =
      some (StepOut.errored (LuaError.runtime "boom")) :=
  ⟨rfl, rfl,
    (pollStep_polls_once incFut encodeInt subOne 0 4 4 0 [] 5
      (LuaError.runtime "boom") [LV.int 5]).2.2.1 rfl rfl,
    rfl,
    (pollStep_polls_once (futureErr Int (LuaError.runtime "boom"))
      encodeInt subOne 0 PUnit.unit PUnit.unit 0 [] 0
      (LuaError.runtime "boom") []).2.2.2.2 rfl⟩

/-- Helper: `PollThreadFut.poll` expressed through a single `resumeThread`
call on `sentArgs encA f.args` (the two `if let` arms of src/lib.rs
lines 123-127 collapsed). -/
theorem poll_eq {σ Arg Ret : Type} (co : CoStep σ) (encA : Arg → MultiValue)
    (decodeRet : MultiValue → Except LuaError Ret) (ctx : Ctx) (slot : Relay)
    (f : PollThreadFut σ Arg) :
    PollThreadFut.poll co encA decodeRet ctx slot f =
      match resumeThread co (some ctx) f.thread (sentArgs encA f.args) with
      | none => none
      | some (t1, Except.error e) =>
        some (slot, PollOut.ready { args := none, thread := t1 } (Except.error e))
      | some (t1, Except.ok v) =>
        match t1.status with
        | ThreadStatus.Resumable =>
          some (slot, PollOut.pending { args := none, thread := t1 })
        | ThreadStatus.Unresumable =>
          some (slot, PollOut.ready { args := none, thread := t1 } (decodeRet v))
        | ThreadStatus.Error => some (slot, PollOut.panicked) := by
  cases h : f.args <;> simp [PollThreadFut.poll, sentArgs, h]

/-- Helper: when a resume reports success, the resulting thread status is
never `Error` — a body yield leaves the thread suspended (`Resumable`), a
body return leaves it dead (`Unresumable`), and both the body-error case and
the inactive-thread case report failure from the resume call itself. -/
theorem resumeThread_ok_status_ne_error {σ : Type} (co : CoStep σ) (slot : Relay)
    (t t1 : ThreadState σ) (args v : MultiValue)
    (h : resumeThread co slot t args = some (t1, Except.ok v)) :
    t1.status ≠ ThreadStatus.Error := by
  cases t with
  | suspended s =>
    rcases hc : co slot s args with _ | out
    · simp [resumeThread, hc] at h
    · cases out with
      | yielded s1 vs =>
        simp [resumeThread, hc] at h
        obtain ⟨h1, h2⟩ := h
        subst h1
        simp [ThreadState.status]
      | returned vs =>
        simp [resumeThread, hc] at h
        obtain ⟨h1, h2⟩ := h
        subst h1
        simp [ThreadState.status]
      | errored e2 => simp [resumeThread, hc] at h
  | dead => simp [resumeThread] at h
  | failed => simp [resumeThread] at h

/-- **C4.** If the resume performed inside a poll fails, the poll immediately
returns `Ready` with that failure (no retry); and after a successful resume
the status `ThreadStatus.Error` is never observed, so no poll ever reaches
the `unreachable!()` branch. -/
theorem poll_resume_error_no_retry {σ Arg Ret : Type} (co : CoStep σ)
    (encA : Arg → MultiValue) (decodeRet : MultiValue → Except LuaError Ret)
    (ctx : Ctx) (slot : Relay) (f : PollThreadFut σ Arg)
    (t1 : ThreadState σ) (e : LuaError) :
    (resumeThread co (some ctx) f.thread (sentArgs encA f.args) =
        some (t1, Except.error e) →
      PollThreadFut.poll co encA decodeRet ctx slot f =
        some (slot, PollOut.ready { args := none, thread := t1 } (Except.error e)))
    ∧ (∀ (sl : Relay) (out : PollOut σ Arg Ret),
        PollThreadFut.poll co encA decodeRet ctx slot f = some (sl, out) →
        out ≠ PollOut.panicked) := by
  constructor
  · intro h
    rw [poll_eq, h]
  · intro sl out hp
    rw [poll_eq] at hp
    rcases hres : resumeThread co (some ctx) f.thread (sentArgs encA f.args)
      with _ | ⟨t2, r⟩
    · rw [hres] at hp
      exact absurd hp (by simp)
    · rcases r with e2 | v
      · rw [hres] at hp
        simp only [Option.some.injEq, Prod.mk.injEq] at hp
        obtain ⟨h1, h2⟩ := hp
        subst h2
        simp
      · have hne := resumeThread_ok_status_ne_error co (some ctx) f.thread t2 _ v hres
        rw [hres] at hp
        cases t2 with
        | suspended s2 =>
          simp only [ThreadState.status, Option.some.injEq, Prod.mk.injEq] at hp
          obtain ⟨h1, h2⟩ := hp
          subst h2
          simp
        | dead =>
          simp only [ThreadState.status, Option.some.injEq, Prod.mk.injEq] at hp
          obtain ⟨h1, h2⟩ := hp
          subst h2
          simp
        | failed => exact absurd rfl hne

/-- Witness for C4: a coroutine body that raises `runtime "boom"` makes the
first poll return `Ready` with exactly that error. -/
theorem poll_resume_error_no_retry_witness :
    resumeThread (constErrCo (LuaError.runtime "boom")) (some 0)
        (ThreadState.suspended PUnit.unit) (sentArgs encIntArg (some (1 : Int))) =
      some (ThreadState.failed, Except.error (LuaError.runtime "boom"))
    ∧ PollThreadFut.poll (constErrCo (LuaError.runtime "boom")) encIntArg
        decodeIntArg 0 none
        { args := some (1 : Int), thread := ThreadState.suspended PUnit.unit } =
      some (none, PollOut.ready { args := none, thread := ThreadState.failed }
        (Except.error (LuaError.runtime "boom"))) :=
  ⟨rfl,
    (poll_resume_error_no_retry (constErrCo (LuaError.runtime "boom")) encIntArg
      decodeIntArg 0 none
      { args := some (1 : Int), thread := ThreadState.suspended PUnit.unit }
      ThreadState.failed (LuaError.runtime "boom")).1 rfl⟩

/-- **C5.** Call arguments are delivered on the first resume only: a poll
whose argument slot holds `a` resumes the thread with the encoding of `a`
and empties the slot, a poll whose slot is empty resumes with the empty
multivalue, and after any poll the slot of the returned poller is empty —
so every subsequent poll resumes with no arguments. (The recording coroutine
`recCo` logs the exact arguments each resume received.) -/
theorem poll_args_first_resume_only {Arg Ret : Type} (encA : Arg → MultiValue)
    (decodeRet : MultiValue → Except LuaError Ret) (ctx : Ctx) (slot : Relay)
    (a : Arg) (log : List (Relay × MultiValue)) :
    (PollThreadFut.poll recCo encA decodeRet ctx slot
        { args := some a, thread := ThreadState.suspended log } =
      some (slot, PollOut.pending
        ⟨none, ThreadState.suspended (log ++ [(some ctx, encA a)])⟩))
    ∧ (PollThreadFut.poll recCo encA decodeRet ctx slot
        { args := none, thread := ThreadState.suspended log } =
      some (slot, PollOut.pending
        ⟨none, ThreadState.suspended (log ++ [(some ctx, [])])⟩))
    ∧ (∀ (σ : Type) (co : CoStep σ) (f : PollThreadFut σ Arg)
        (sl : Relay) (out : PollOut σ Arg Ret),
        PollThreadFut.poll co encA decodeRet ctx slot f = some (sl, out) →
        afterArgs out = none) := by
  refine ⟨rfl, rfl, fun σ co f sl out h => ?_⟩
  rw [poll_eq] at h
  rcases hres : resumeThread co (some ctx) f.thread (sentArgs encA f.args)
    with _ | ⟨t2, r⟩
  · rw [hres] at h
    exact absurd h (by simp)
  · rcases r with e2 | v
    · rw [hres] at h
      simp only [Option.some.injEq, Prod.mk.injEq] at h
      obtain ⟨h1, h2⟩ := h
      subst h2
      simp [afterArgs]
    · rw [hres] at h
      cases t2 <;>
          simp only [ThreadState.status, Option.some.injEq, Prod.mk.injEq] at h <;>
        obtain ⟨h1, h2⟩ := h <;> subst h2 <;> simp [afterArgs]

/-- Witness for C5: after the first poll of the recording coroutine with
argument `7`, the recorded resume carries `[7]`, and the argument slot of the
resulting poller is empty. -/
theorem poll_args_first_resume_only_witness :
    PollThreadFut.poll recCo encIntArg decodeIntArg 3 none
        { args := some (7 : Int), thread := ThreadState.suspended [] } =
      some (none, PollOut.pending
        ⟨none, ThreadState.suspended [(some 3, [LV.int 7])]⟩)
    ∧ afterArgs (PollOut.pending
        ⟨(none : Option Int), ThreadState.suspended [(some 3, [LV.int 7])]⟩ :
        PollOut (List (Relay × MultiValue)) Int Int) = none :=
  ⟨(poll_args_first_resume_only encIntArg decodeIntArg 3 none 7 []).1,
    (poll_args_first_resume_only encIntArg decodeIntArg 3 none 7 []).2.2
      (List (Relay × MultiValue)) recCo
      { args := some (7 : Int), thread := ThreadState.suspended [] } none
      (PollOut.pending ⟨none, ThreadState.suspended [(some 3, [LV.int 7])]⟩)
      (poll_args_first_resume_only encIntArg decodeIntArg 3 none 7 []).1⟩

/-- **C6.** `call_async` with a failed coroutine creation returns the
already-failed future `future::err(e)` (which resolves to exactly that
creation error on its first poll) and creates no thread; on successful
creation it returns a `PollThreadFut` whose pending-argument slot is
pre-loaded with the call arguments and whose thread is the fresh suspended
coroutine. -/
theorem call_async_creation {σ Arg : Type} (e : LuaError) (s0 : σ) (args : Arg)
    (ctx : Ctx) :
    call_async (Except.error e : Except LuaError σ) args = CallAsync.failedFuture e
    ∧ futureErr Int e ctx PUnit.unit = (PUnit.unit, Poll.Ready (Except.error e))
    ∧ call_async (Except.ok s0) args =
        CallAsync.poller { args := some args, thread := ThreadState.suspended s0 } :=
  ⟨rfl, rfl, rfl⟩

/-- Helper: with a context installed in the relay, the poll-step closure
never aborts. -/
theorem pollStep_installed_some {σ ρ : Type} (fut : FutSpec σ ρ)
    (encodeRet : ρ → Except LuaError MultiValue) (ctx : Ctx) (s : σ)
    (la : MultiValue) : pollStep fut encodeRet (some ctx) s la ≠ none := by
  rcases hf : fut ctx s with ⟨s1, r⟩
  rcases r with _ | r
  · simp [pollStep, hf]
  · rcases r with e | v
    · simp [pollStep, hf]
    · rcases he : encodeRet v with e | mv <;> simp [pollStep, hf, he]

/-- Helper: with a context installed in the relay, one control-loop iteration
never aborts. -/
theorem loopIter_installed_some {σ ρ : Type} (fut : FutSpec σ ρ)
    (encodeRet : ρ → Except LuaError MultiValue)
    (post : MultiValue → Except LuaError MultiValue) (ctx : Ctx) (s : σ) :
    loopIter fut encodeRet post (some ctx) s ≠ none := by
  have h := pollStep_installed_some fut encodeRet ctx s []
  rcases hp : pollStep fut encodeRet (some ctx) s [] with _ | ⟨s1, res⟩
  · exact absurd hp h
  · rcases res with e | mv
    · simp [loopIter, hp]
    · simp only [loopIter, hp]
      split
      · split
        · simp
        · split <;> simp
      · simp

/-- Helper: with a context installed, the forwarding coroutine body never
aborts on any step. -/
theorem forwardCo_installed_some {A σ ρ : Type}
    (decodeArg : MultiValue → Except LuaError A) (producer : A → σ)
    (fut : FutSpec σ ρ) (encodeRet : ρ → Except LuaError MultiValue)
    (post : MultiValue → Except LuaError MultiValue) (ctx : Ctx)
    (st : CLState σ) (args : MultiValue) :
    forwardCo decodeArg producer fut encodeRet post (some ctx) st args ≠ none := by
  cases st with
  | entry =>
    rcases hs : startStage decodeArg producer args with e | s
    · simp [forwardCo, hs]
    · simpa [forwardCo, hs] using loopIter_installed_some fut encodeRet post ctx s
  | inLoop s =>
    simpa [forwardCo] using loopIter_installed_some fut encodeRet post ctx s

/-- **C7.** The suspension-context slot is managed by exactly the poll call
that installed it: (1) whatever outcome a poll has, the relay value it
returns control with equals the value on entry (restored on every exit path,
failure included); (2) through the recording coroutine, the relay value a
resume runs under inside a poll is always `some ctx`, the installed context
of that very poll; (3) for the composed system — a poller driving the
forwarding coroutine built from the control loop and poll-step closure — no
poll ever aborts on a relay read: every read of `FUTURE_CTX` happens inside
the installation. -/
theorem relay_reads_scoped_to_install {Arg Ret : Type} (encA : Arg → MultiValue)
    (decodeRet : MultiValue → Except LuaError Ret) (ctx : Ctx) (slot : Relay) :
    (∀ (σ : Type) (co : CoStep σ) (f : PollThreadFut σ Arg)
        (p : Relay × PollOut σ Arg Ret),
        PollThreadFut.poll co encA decodeRet ctx slot f = some p → p.1 = slot)
    ∧ (∀ (aOpt : Option Arg) (log : List (Relay × MultiValue)),
        PollThreadFut.poll recCo encA decodeRet ctx slot
            { args := aOpt, thread := ThreadState.suspended log } =
          some (slot, PollOut.pending
            ⟨none, ThreadState.suspended (log ++ [(some ctx, sentArgs encA aOpt)])⟩))
    ∧ (∀ (A σ ρ : Type) (decodeArg : MultiValue → Except LuaError A)
        (producer : A → σ) (fut : FutSpec σ ρ)
        (encodeRet : ρ → Except LuaError MultiValue)
        (post : MultiValue → Except LuaError MultiValue)
        (f : PollThreadFut (CLState σ) Arg),
        PollThreadFut.poll (forwardCo decodeArg producer fut encodeRet post)
          encA decodeRet ctx slot f ≠ none) := by
  refine ⟨fun σ co f p hp => ?_, fun aOpt log => ?_,
    fun A σ ρ decodeArg producer fut encodeRet post f => ?_⟩
  · rw [poll_eq] at hp
    rcases hres : resumeThread co (some ctx) f.thread (sentArgs encA f.args)
      with _ | ⟨t2, r⟩
    · rw [hres] at hp
      exact absurd hp (by simp)
    · rcases r with e | v
      · rw [hres] at hp
        simp only [Option.some.injEq] at hp
        cases hp
        rfl
      · rw [hres] at hp
        cases t2 <;> simp only [ThreadState.status, Option.some.injEq] at hp <;>
          cases hp <;> rfl
  · cases aOpt <;> rfl
  · rw [poll_eq]
    cases hth : f.thread with
    | suspended s =>
      have h := forwardCo_installed_some decodeArg producer fut encodeRet post ctx s
        (sentArgs encA f.args)
      rcases hc : forwardCo decodeArg producer fut encodeRet post (some ctx) s
          (sentArgs encA f.args) with _ | out
      · exact absurd hc h
      · cases out <;> simp [resumeThread, hc, ThreadState.status]
    | dead => simp [resumeThread]
    | failed => simp [resumeThread]

/-- Witness for C7: concrete first poll through the recording coroutine, with
relay empty on entry; the poll returns with the relay still empty and the
single resume it performed ran under the installed context `5`. -/
theorem relay_reads_scoped_to_install_witness :
    PollThreadFut.poll recCo encIntArg decodeIntArg 5 none
        { args := some (1 : Int), thread := ThreadState.suspended [] } =
      some ((none : Relay),
        PollOut.pending ⟨none, ThreadState.suspended [(some 5, [LV.int 1])]⟩)
    ∧ ((none : Relay),
        (PollOut.pending ⟨none, ThreadState.suspended [(some 5, [LV.int 1])]⟩ :
          PollOut (List (Relay × MultiValue)) Int Int)).1 = (none : Relay) :=
  ⟨(relay_reads_scoped_to_install encIntArg decodeIntArg 5 none).2.1 (some 1) [],
    (relay_reads_scoped_to_install encIntArg decodeIntArg 5 none).1
      (List (Relay × MultiValue)) recCo
      { args := some (1 : Int), thread := ThreadState.suspended [] }
      ((none : Relay),
        PollOut.pending ⟨none, ThreadState.suspended [(some 5, [LV.int 1])]⟩)
      ((relay_reads_scoped_to_install encIntArg decodeIntArg 5 none).2.1 (some 1) [])⟩

/-- **C8 counterexample.** The claim that the control-loop snippet is loaded
and evaluated a single time for any number of `create_async_function` calls
is false at two calls: `create_async_function` evaluates the snippet
unconditionally on every call (src/lib.rs lines 80-98), so after two calls the
snippet has been evaluated twice, not once. -/
theorem snippet_eval_once_counterexample :
    (createMany 2 { snippetEvals := 0 }).snippetEvals ≠ 1 := by decide

/-- **C8 (amended).** The control-loop snippet is loaded and evaluated once
per `create_async_function` call, not once overall: after `n` calls the
interpreter has evaluated it `n` more times. -/
theorem snippet_eval_once_per_call (n : Nat) (st : SnippetState) :
    (createMany n st).snippetEvals = st.snippetEvals + n := by
  induction n with
  | zero => rfl
  | succ k ih =>
    simp only [createMany, createAsyncFunctionSnippet, ih]
    omega

/-- **C9.** Each `PollThreadFut::poll` performs at most one coroutine resume:
through the counting coroutine, a poll that observes the thread still
resumable increments the resume counter by exactly one and returns `Pending`
without resuming again; and a poll of a finished thread performs its single
(failing) resume at the interpreter-API level without ever entering the
coroutine body. -/
theorem poll_at_most_one_resume {Arg Ret : Type} (encA : Arg → MultiValue)
    (decodeRet : MultiValue → Except LuaError Ret) (ctx : Ctx) (slot : Relay)
    (aOpt : Option Arg) (n : Nat) :
    (PollThreadFut.poll countCo encA decodeRet ctx slot
        { args := aOpt, thread := ThreadState.suspended n } =
      some (slot, PollOut.pending ⟨none, ThreadState.suspended (n + 1)⟩))
    ∧ (∀ (σ : Type) (co : CoStep σ),
        PollThreadFut.poll co encA decodeRet ctx slot
            { args := aOpt, thread := ThreadState.dead } =
          some (slot, PollOut.ready ⟨none, ThreadState.dead⟩
            (Except.error LuaError.coroutineInactive))) := by
  refine ⟨?_, fun σ co => ?_⟩ <;> cases aOpt <;> rfl

/-- **C10.** Polling a `PollThreadFut` again after it already returned
`Ready` (its thread finished or failed, its argument slot already empty) is
total: the resume of the no-longer-resumable coroutine returns the
`CoroutineInactive` interpreter error and the poll returns `Ready` with that
error — the argument slot stays empty and the `unreachable!()` branch is not
reached. -/
theorem poll_after_ready_total {σ Arg Ret : Type} (co : CoStep σ)
    (encA : Arg → MultiValue) (decodeRet : MultiValue → Except LuaError Ret)
    (ctx : Ctx) (slot : Relay) (t : ThreadState σ)
    (h : t = ThreadState.dead ∨ t = ThreadState.failed) :
    PollThreadFut.poll co encA decodeRet ctx slot { args := none, thread := t } =
      some (slot, PollOut.ready ⟨none, t⟩
        (Except.error LuaError.coroutineInactive)) := by
  rcases h with rfl | rfl <;> rfl

/-- Witness for C10: polling again after the `it_works` coroutine finished. -/
theorem poll_after_ready_total_witness :
    ((ThreadState.dead : ThreadState (CLState Int)) = ThreadState.dead ∨
      (ThreadState.dead : ThreadState (CLState Int)) = ThreadState.failed)
    ∧ PollThreadFut.poll itWorksCo encIntArg decodeIntArg 0 none
        { args := none, thread := ThreadState.dead } =
      some (none, PollOut.ready ⟨none, ThreadState.dead⟩
        (Except.error LuaError.coroutineInactive)) :=
  ⟨Or.inl rfl,
    poll_after_ready_total itWorksCo encIntArg decodeIntArg 0 none
      ThreadState.dead (Or.inl rfl)⟩

end RluaAsync
